import Mathlib

/-! go-metrics-clickhouse: the reporter of `clickhouse.go`

A shallow embedding of `src/clickhouse.go`.

* Go slices of strings are slice headers (backing array, length, capacity) over an explicit
  heap of backing arrays, so that `append` writes into spare capacity exactly as the Go
  runtime does.
* Go maps are lists of entries; the order in which a `range` loop visits the entries of the
  `fields` literals of `send` is chosen by the runtime and is a field of `Env`.
* `float64` and `float32` are abstract types; the three numeric conversions used by `send`
  are fields of `Env`.
* The database (`sqlx`, the ClickHouse driver) is an external collaborator: every call that
  can fail takes its result from a script (`ClientScript`, `SendScript`).
* `log.Fatalf` ends the process; a nil pointer dereference panics. Both are outcomes.
-/

namespace GoMetricsClickhouse

/-! ## Go slices of strings -/

/-- Slice header of a Go `[]string`: the index of its backing array in the heap, its length and
its capacity. Every slice of `clickhouse.go` starts at offset 0 of its backing array. -/
structure Slice where
  arr : Nat
  len : Nat
  cap : Nat
deriving DecidableEq, Repr

/-- The heap of backing arrays of `[]string` values; each array is the list of its cells. -/
abbrev Heap := List (List String)

/-- The elements of slice `s` as seen through heap `h`. -/
def Heap.read (h : Heap) (s : Slice) : List String :=
  (h.getD s.arr []).take s.len

/-- The Go literal `[]string{}`: length 0, capacity 0. -/
def emptySlice : Slice := { arr := 0, len := 0, cap := 0 }

/-- Capacity chosen by the Go runtime (`growslice`) when one element is appended to a full
slice of capacity `c` holding 16-byte elements, for `c < 256`: 1 for an empty slice, else
double. -/
def goGrow (c : Nat) : Nat := if c = 0 then 1 else 2 * c

/-- Environment of one run: what the Go runtime and the numeric types decide.

* `grow c`: capacity picked when appending one element to a full slice of capacity `c`;
* `rangeFields name fields`: the order in which `for k, v := range fields` visits the entries
  of the `fields` map built for the metric registered under `name`;
* `f32OfI64`, `f64OfI64`, `f32OfF64`: the conversions `float32(int64)`, `float64(int64)`,
  `float32(float64)`. -/
structure Env (F64 F32 : Type) where
  grow : Nat → Nat
  rangeFields : String → List (String × F64) → List (String × F64)
  f32OfI64 : Int → F32
  f64OfI64 : Int → F64
  f32OfF64 : F64 → F32

/-- Go builtin `append(s, x)` for one element: when `len(s) < cap(s)` the element is written
into cell `len(s)` of the backing array of `s` and the result shares that array; otherwise a new
backing array is allocated, the elements of `s` are copied and `x` is stored after them. -/
def goAppend (grow : Nat → Nat) (h : Heap) (s : Slice) (x : String) : Heap × Slice :=
  if s.len < s.cap then
    (h.set s.arr ((h.getD s.arr []).set s.len x), { s with len := s.len + 1 })
  else
    let newcap := max (s.len + 1) (grow s.cap)
    (h ++ [h.read s ++ [x] ++ List.replicate (newcap - (s.len + 1)) ""],
      { arr := h.length, len := s.len + 1, cap := newcap })

/-- Source `makeTags`: `tags` lists the entries of the map in the order the `range` loop visits
them. -/
def makeTags (grow : Nat → Nat) (tags : List (String × String)) (h : Heap) : Heap × Slice :=
  tags.foldl (fun st kv => goAppend grow st.1 st.2 (kv.1 ++ "=" ++ kv.2)) (h, emptySlice)

/-- Source `makeBucketTags`. -/
def makeBucketTags (grow : Nat → Nat) (bucket : String) (tags : Slice) (h : Heap) :
    Heap × Slice :=
  goAppend grow h tags ("bucket=" ++ bucket)

/-! ## Metrics and rows -/

/-- What `send` reads from a `metrics.Histogram` snapshot. `ps` is the result of
`Percentiles([]float64{0.5, 0.75, 0.95, 0.99, 0.999, 0.9999})`, which has one entry per
requested percentile. -/
structure HistogramSnapshot (F64 : Type) where
  count : Int
  max : Int
  mean : F64
  min : Int
  stdDev : F64
  variance : F64
  ps : Fin 6 → F64

/-- What `send` reads from a `metrics.Meter` snapshot. -/
structure MeterSnapshot (F64 : Type) where
  count : Int
  rate1 : F64
  rate5 : F64
  rate15 : F64
  rateMean : F64

/-- What `send` reads from a `metrics.Timer` snapshot. -/
structure TimerSnapshot (F64 : Type) where
  count : Int
  max : Int
  mean : F64
  min : Int
  stdDev : F64
  variance : F64
  ps : Fin 6 → F64
  rate1 : F64
  rate5 : F64
  rate15 : F64
  rateMean : F64

/-- A registry entry, by the case of the type switch of `send` that its dynamic type selects.
The six interfaces have `Snapshot` methods of different result types, so a value satisfies at
most one of them; `other` is a value that satisfies none. -/
inductive Metric (F64 : Type) where
  | counter (count : Int)
  | gauge (value : Int)
  | gaugeFloat64 (value : F64)
  | histogram (ms : HistogramSnapshot F64)
  | meter (ms : MeterSnapshot F64)
  | timer (ms : TimerSnapshot F64)
  | other

/-- Source `metricRow`. `mtime` is in nanoseconds since the zero instant of `time.Time`. -/
structure metricRow (F32 : Type) where
  mtime : Int
  name : String
  tags : Slice
  fval : F32
deriving DecidableEq, Repr

/-- The `fields` map literal of the `metrics.Histogram` case. -/
def histogramFields {F64 F32 : Type} (E : Env F64 F32) (ms : HistogramSnapshot F64) :
    List (String × F64) :=
  [("count", E.f64OfI64 ms.count),
   ("max", E.f64OfI64 ms.max),
   ("mean", ms.mean),
   ("min", E.f64OfI64 ms.min),
   ("stddev", ms.stdDev),
   ("variance", ms.variance),
   ("p50", ms.ps 0),
   ("p75", ms.ps 1),
   ("p95", ms.ps 2),
   ("p99", ms.ps 3),
   ("p999", ms.ps 4),
   ("p9999", ms.ps 5)]

/-- The `fields` map literal of the `metrics.Meter` case. -/
def meterFields {F64 F32 : Type} (E : Env F64 F32) (ms : MeterSnapshot F64) :
    List (String × F64) :=
  [("count", E.f64OfI64 ms.count),
   ("m1", ms.rate1),
   ("m5", ms.rate5),
   ("m15", ms.rate15),
   ("mean", ms.rateMean)]

/-- The `fields` map literal of the `metrics.Timer` case. -/
def timerFields {F64 F32 : Type} (E : Env F64 F32) (ms : TimerSnapshot F64) :
    List (String × F64) :=
  [("count", E.f64OfI64 ms.count),
   ("max", E.f64OfI64 ms.max),
   ("mean", ms.mean),
   ("min", E.f64OfI64 ms.min),
   ("stddev", ms.stdDev),
   ("variance", ms.variance),
   ("p50", ms.ps 0),
   ("p75", ms.ps 1),
   ("p95", ms.ps 2),
   ("p99", ms.ps 3),
   ("p999", ms.ps 4),
   ("p9999", ms.ps 5),
   ("m1", ms.rate1),
   ("m5", ms.rate5),
   ("m15", ms.rate15),
   ("meanrate", ms.rateMean)]

/-- State of the flattening step of `send`: the heap and the rows `pts` appended so far. -/
abbrev FlatState (F32 : Type) := Heap × List (metricRow F32)

/-- The loop `for k, v := range fields { pts = append(pts, metricRow{...}) }` shared by the
Histogram, Meter and Timer cases; `rowName` is the formatted row name. -/
def rangeAppend {F64 F32 : Type} (E : Env F64 F32) (rtags : Slice) (now : Int)
    (rowName : String) (visit : List (String × F64)) (st : FlatState F32) : FlatState F32 :=
  visit.foldl
    (fun st kv =>
      let bt := makeBucketTags E.grow kv.1 rtags st.1
      (bt.1, st.2 ++ [{ mtime := now, name := rowName, tags := bt.2, fval := E.f32OfF64 kv.2 }]))
    st

/-- The callback that `send` passes to `r.reg.Each`: the type switch on one registry entry. -/
def sendEach {F64 F32 : Type} (E : Env F64 F32) (rtags : Slice) (now : Int)
    (st : FlatState F32) (entry : String × Metric F64) : FlatState F32 :=
  match entry.2 with
  | .counter c =>
      (st.1, st.2 ++ [{ mtime := now, name := entry.1 ++ ".count", tags := rtags,
                        fval := E.f32OfI64 c }])
  | .gauge v =>
      (st.1, st.2 ++ [{ mtime := now, name := entry.1 ++ ".gauge", tags := rtags,
                        fval := E.f32OfI64 v }])
  | .gaugeFloat64 v =>
      (st.1, st.2 ++ [{ mtime := now, name := entry.1 ++ ".gauge", tags := rtags,
                        fval := E.f32OfF64 v }])
  | .histogram ms =>
      rangeAppend E rtags now (entry.1 ++ ".histogram")
        (E.rangeFields entry.1 (histogramFields E ms)) st
  | .meter ms =>
      rangeAppend E rtags now (entry.1 ++ ".meter")
        (E.rangeFields entry.1 (meterFields E ms)) st
  | .timer ms =>
      rangeAppend E rtags now (entry.1 ++ ".timer")
        (E.rangeFields entry.1 (timerFields E ms)) st
  | .other => st

/-- The call `r.reg.Each(...)` of `send`: `reg` lists the registered (name, metric) pairs in the
order `Each` visits them; `pts` starts empty. -/
def flatten {F64 F32 : Type} (E : Env F64 F32) (rtags : Slice) (now : Int)
    (reg : List (String × Metric F64)) (h : Heap) : FlatState F32 :=
  reg.foldl (sendEach E rtags now) (h, [])

/-! ## The reporter, the store and the process -/

/-- Source `reporter`, without `reg`: the registry is shared with the producers of the
application, so what `Each` enumerates is an input of every flush cycle. `interval` is a
`time.Duration` in nanoseconds; `chconn` is the connection handle, `none` for a nil pointer. -/
structure reporter where
  interval : Int
  align : Bool
  hostport : String
  database : String
  table : String
  username : String
  password : String
  tags : Slice
  chconn : Option Nat
deriving DecidableEq, Repr

/-- A row as the store receives it from `insertStmt.Exec(pt.mtime, pt.name, pt.tags, pt.fval)`:
the tags are the elements of the slice `pt.tags` at the time of the call. -/
structure StoredRow (F32 : Type) where
  time : Int
  name : String
  tags : List String
  value : F32
deriving DecidableEq, Repr

/-- Everything outside the reporter struct that the code reads or changes.

* `heap`: the backing arrays of the tag slices;
* `store`: the committed rows, visible to readers of the table;
* `opened`: the connection strings of the handles returned by `sqlx.Open`, handle `i` being entry
  `i`; the program never calls `Close`, so nothing is ever removed;
* `log`: the lines written by `log.Printf`. -/
structure World (F32 : Type) where
  heap : Heap
  store : List (StoredRow F32)
  opened : List String
  log : List String

/-- How a call ends: a normal return, `log.Fatalf` (the message is logged and the process exits
with status 1), or a run-time panic. -/
inductive Outcome (α : Type) where
  | returned (v : α)
  | fatal (msg : String)
  | panicked (msg : String)
deriving DecidableEq, Repr

/-- Results of the three database calls of `makeClient`; `none` is a nil error. -/
structure ClientScript where
  openErr : Option String
  createDbErr : Option String
  createTableErr : Option String

/-- Results of the database calls of one `send`; `insertErr i` is the result of the `Exec` of
the row at position `i` (from 0) of `pts`; `none` is a nil error. -/
structure SendScript where
  beginErr : Option String
  prepareErr : Option String
  insertErr : Nat → Option String
  commitErr : Option String

/-- Go `time.Time.Truncate(d)` on instants counted in nanoseconds from the zero instant: `t`
rounded down to a multiple of `d`; `t` itself when `d <= 0`. -/
def truncate (t d : Int) : Int := if d ≤ 0 then t else t - t % d

/-- The connection string assembled at the top of `makeClient`. -/
def reporter.connstring (r : reporter) : String :=
  let userstring :=
    if 0 < r.username.utf8ByteSize ∧ 0 < r.password.utf8ByteSize then
      "username=" ++ r.username ++ "&password=" ++ r.password ++ "&"
    else ""
  "tcp://" ++ r.hostport ++ "?" ++ userstring

/-- Message of the panic raised by a method call through a nil pointer. -/
def nilDeref : String := "invalid memory address or nil pointer dereference"

/-- Source `makeClient`. `sqlx.Open` returns a fresh handle and a nil error, or a nil handle and
an error; its first result is stored in `r.chconn` in both cases. The two `Exec` calls run the
`CREATE DATABASE` and `CREATE TABLE` statements; only their error results matter here, so the
statement texts are not part of the model. -/
def reporter.makeClient {F32 : Type} (r : reporter) (cs : ClientScript) (w : World F32) :
    Outcome (Option String) × reporter × World F32 :=
  let connstring := r.connstring
  let opened : Option Nat × World F32 :=
    match cs.openErr with
    | none => (some w.opened.length, { w with opened := w.opened ++ [connstring] })
    | some _ => (none, w)
  let r1 : reporter := { r with chconn := opened.1 }
  let w1 := opened.2
  let err := cs.openErr
  match r1.chconn with
  | none => (.panicked nilDeref, r1, w1)
  | some _ =>
    match cs.createDbErr with
    | some e => (.fatal ("Error creating clickhouse database: " ++ e), r1, w1)
    | none =>
      match cs.createTableErr with
      | some e => (.fatal ("Error creating clickhouse table: " ++ e), r1, w1)
      | none => (.returned err, r1, w1)

/-- What `insertStmt.Exec(pt.mtime, pt.name, pt.tags, pt.fval)` hands to the store for row `pt`
when the heap is `h`. -/
def toStored {F32 : Type} (h : Heap) (pt : metricRow F32) : StoredRow F32 :=
  { time := pt.mtime, name := pt.name, tags := h.read pt.tags, value := pt.fval }

/-- The insert loop of `send`: `i` is the position of the head of `pts` in the batch, `acc` the
rows already handed to the open transaction. The result is the message of `log.Fatalf` when an
`Exec` fails, else all rows handed to the transaction. -/
def insertLoop {F32 : Type} (sc : SendScript) (h : Heap) :
    Nat → List (metricRow F32) → List (StoredRow F32) → Except String (List (StoredRow F32))
  | _, [], acc => .ok acc
  | i, pt :: pts, acc =>
    match sc.insertErr i with
    | some e => .error ("Error insert to ClickHouse: " ++ e)
    | none =>
      insertLoop sc h (i + 1) pts (acc ++ [toStored h pt])

/-- The timestamp of the rows of one `send`: the value of `now` after the `if r.align` statement,
`clock` being what `time.Now()` returned. -/
def reporter.cycleTime (r : reporter) (clock : Int) : Int :=
  if r.align then truncate clock r.interval else clock

/-- The flattening step of `send`: the heap and the rows `pts` after `r.reg.Each` returns. -/
def reporter.points {F64 F32 : Type} (E : Env F64 F32) (r : reporter)
    (reg : List (String × Metric F64)) (clock : Int) (h : Heap) : FlatState F32 :=
  flatten E r.tags (r.cycleTime clock) reg h

/-- Source `send`. `reg` is what `r.reg.Each` enumerates and `clock` what `time.Now()` returns in
this cycle. The rows of a transaction become part of `store` at a successful `Commit`. The
deferred `insertStmt.Close()` does not touch the store and is not part of the model. -/
def reporter.send {F64 F32 : Type} (E : Env F64 F32) (r : reporter)
    (reg : List (String × Metric F64)) (clock : Int) (sc : SendScript) (w : World F32) :
    Outcome (Option String) × World F32 :=
  let flat : FlatState F32 := r.points E reg clock w.heap
  let w1 : World F32 := { w with heap := flat.1 }
  let pts := flat.2
  match r.chconn with
  | none => (.panicked nilDeref, w1)
  | some _ =>
    match sc.beginErr with
    | some _ => (.panicked nilDeref, w1)
    | none =>
      match sc.prepareErr with
      | some e => (.fatal ("Error preparing insert statement: " ++ e), w1)
      | none =>
        match insertLoop sc w1.heap 0 pts [] with
        | .error msg => (.fatal msg, w1)
        | .ok batch =>
          match sc.commitErr with
          | some e => (.fatal ("Error commit transaction: " ++ e), w1)
          | none => (.returned none, { w1 with store := w1.store ++ batch })

/-- One tick received by the `select` of `run`, with what the outside world answers during its
handling. -/
inductive Tick (F64 : Type) where
  | interval (reg : List (String × Metric F64)) (clock : Int) (sc : SendScript)
  | ping (pingErr : Option String) (cs : ClientScript)

/-- State of the goroutine running the reporter: in the loop of `run`, or out of it: by a
return of the start function, or with the whole process ended by `log.Fatalf` or a panic. -/
inductive Proc (F32 : Type) where
  | running (r : reporter) (w : World F32)
  | exited (how : Outcome Unit) (r : reporter) (w : World F32)

/-- Whether the reporter loop is still running. -/
def Proc.alive {F32 : Type} : Proc F32 → Bool
  | .running _ _ => true
  | .exited _ _ _ => false

/-- The world of a process state. -/
def Proc.world {F32 : Type} : Proc F32 → World F32
  | .running _ w => w
  | .exited _ _ w => w

/-- How the process state was left, `none` while the loop runs. -/
def Proc.how {F32 : Type} : Proc F32 → Option (Outcome Unit)
  | .running _ _ => none
  | .exited o _ _ => some o

/-- One iteration of the `for { select { ... } }` of `run`. -/
def reporter.runStep {F64 F32 : Type} (E : Env F64 F32) (r : reporter) (w : World F32) :
    Tick F64 → Proc F32
  | .interval reg clock sc =>
    match r.send E reg clock sc w with
    | (.returned none, w1) => .running r w1
    | (.returned (some err), w1) =>
      .running r { w1 with log := w1.log ++ ["unable to send metrics to ClickHouse. err=" ++ err] }
    | (.fatal msg, w1) => .exited (.fatal msg) r w1
    | (.panicked msg, w1) => .exited (.panicked msg) r w1
  | .ping pingErr cs =>
    match r.chconn with
    | none => .exited (.panicked nilDeref) r w
    | some _ =>
      match pingErr with
      | none => .running r w
      | some e =>
        let w0 : World F32 := { w with log := w.log ++
          ["got error while sending a ping to ClickHouse, trying to recreate client. err=" ++ e] }
        match r.makeClient cs w0 with
        | (.returned none, r1, w1) => .running r1 w1
        | (.returned (some err), r1, w1) =>
          .running r1 { w1 with log := w1.log ++ ["unable to make ClickHouse client. err=" ++ err] }
        | (.fatal msg, r1, w1) => .exited (.fatal msg) r1 w1
        | (.panicked msg, r1, w1) => .exited (.panicked msg) r1 w1

/-- Source `run` on a finite sequence of ticks: the loop handles them one after the other and
stops only when the process ends. -/
def reporter.run {F64 F32 : Type} (E : Env F64 F32) (r : reporter) (w : World F32) :
    List (Tick F64) → Proc F32
  | [] => .running r w
  | t :: ts =>
    match r.runStep E w t with
    | .running r1 w1 => reporter.run E r1 w1 ts
    | .exited how r1 w1 => .exited how r1 w1

/-- Source `ClickHouseWithTags`, up to the call of `run`: the reporter it builds (the tags map
is given by its entries in `range` order), the first `makeClient`, and `run` on the given ticks.
When `makeClient` returns an error the function logs it and returns without running the loop. -/
def ClickHouseWithTags {F64 F32 : Type} (E : Env F64 F32) (d : Int)
    (hostport database table username password : String) (tags : List (String × String))
    (align : Bool) (cs : ClientScript) (ticks : List (Tick F64)) (w : World F32) :
    Proc F32 :=
  let mt := makeTags E.grow tags w.heap
  let rep : reporter :=
    { interval := d, align := align, hostport := hostport, database := database,
      table := table, username := username, password := password, tags := mt.2,
      chconn := none }
  match rep.makeClient cs { w with heap := mt.1 } with
  | (.returned none, r1, w1) => r1.run E w1 ticks
  | (.returned (some err), r1, w1) =>
    .exited (.returned ()) r1
      { w1 with log := w1.log ++ ["unable to make ClickHouse client. err=" ++ err] }
  | (.fatal msg, r1, w1) => .exited (.fatal msg) r1 w1
  | (.panicked msg, r1, w1) => .exited (.panicked msg) r1 w1

/-- Source `ClickHouse`: `ClickHouseWithTags` with an empty tags map. -/
def ClickHouse {F64 F32 : Type} (E : Env F64 F32) (d : Int)
    (hostport database table username password : String)
    (align : Bool) (cs : ClientScript) (ticks : List (Tick F64)) (w : World F32) :
    Proc F32 :=
  ClickHouseWithTags E d hostport database table username password [] align cs ticks w

/-! ## Concrete runs -/

/-- An environment for concrete runs: the growth of the Go runtime, `range` visiting the entries
in the order of the literal, and integers standing for the floating-point values. -/
def exEnv : Env Int Int :=
  { grow := goGrow, rangeFields := fun _ l => l, f32OfI64 := id, f64OfI64 := id, f32OfF64 := id }

/-- A tags map with three entries. -/
def exTags : List (String × String) := [("a", "1"), ("b", "2"), ("c", "3")]

/-- The reporter that `ClickHouseWithTags` builds for `exTags` from an empty heap, connected with
handle 0. -/
def exReporter : reporter :=
  { interval := 1000000000, align := false, hostport := "localhost:9000", database := "temp3",
    table := "gomet", username := "", password := "", tags := (makeTags goGrow exTags []).2,
    chconn := some 0 }

/-- The world of `exReporter` before its first flush: the heap left by `makeTags`, an empty
table, one open handle. -/
def exWorld : World Int :=
  { heap := (makeTags goGrow exTags []).1, store := [], opened := ["tcp://localhost:9000?"],
    log := [] }

/-- A meter snapshot whose five statistics differ. -/
def exMeter : MeterSnapshot Int :=
  { count := 7, rate1 := 1, rate5 := 5, rate15 := 15, rateMean := 9 }

/-- A histogram snapshot whose twelve statistics differ. -/
def exHistogram : HistogramSnapshot Int :=
  { count := 20, max := 21, mean := 22, min := 23, stdDev := 24, variance := 25,
    ps := fun i => 26 + (i.val : Int) }

/-- A flush in which every database call succeeds. -/
def okSend : SendScript :=
  { beginErr := none, prepareErr := none, insertErr := fun _ => none, commitErr := none }

/-- A flush in which the `Exec` of the row at position `n` fails and every other call
succeeds. -/
def failInsertAt (n : Nat) : SendScript :=
  { beginErr := none, prepareErr := none,
    insertErr := fun i => if i = n then some "broken pipe" else none, commitErr := none }

/-- A `makeClient` in which every database call succeeds. -/
def okClient : ClientScript := { openErr := none, createDbErr := none, createTableErr := none }

/-- A `makeClient` in which `sqlx.Open` fails. -/
def failOpen : ClientScript :=
  { openErr := some "invalid connection string", createDbErr := none, createTableErr := none }

/-- A `makeClient` in which `sqlx.Open` succeeds and the first `Exec` cannot reach the server. -/
def failDial : ClientScript :=
  { openErr := none, createDbErr := some "dial tcp: connection refused", createTableErr := none }

/-! ## Slices: reading after `append` -/

/-- Slice `s` is backed in heap `h`: its length is within its capacity and, unless the capacity
is 0, its backing array exists and has exactly `cap` cells. -/
def Slice.Backed (h : Heap) (s : Slice) : Prop :=
  s.len ≤ s.cap ∧ (s.cap ≠ 0 → s.arr < h.length ∧ (h.getD s.arr []).length = s.cap)

theorem take_set_succ (a : List String) (n : Nat) (x : String) (hn : n < a.length) :
    (a.set n x).take (n + 1) = a.take n ++ [x] := by
  induction a generalizing n with
  | nil => simp at hn
  | cons y ys ih =>
    cases n with
    | zero => simp
    | succ m =>
      simp only [List.length_cons, Nat.add_lt_add_iff_right] at hn
      simp [ih m hn]

theorem take_set_same (a : List String) (n : Nat) (x : String) :
    (a.set n x).take n = a.take n := by
  induction a generalizing n with
  | nil => simp
  | cons y ys ih =>
    cases n with
    | zero => simp
    | succ m => simp [ih m]

theorem getD_set_self (h : Heap) (i : Nat) (a : List String) (hi : i < h.length) :
    (h.set i a).getD i [] = a := by
  simp [List.getD_eq_getElem?_getD, List.getElem?_set, hi]

theorem getD_append_lt (h : Heap) (i : Nat) (a : List String) (hi : i < h.length) :
    (h ++ [a]).getD i [] = h.getD i [] := by
  simp [List.getD_eq_getElem?_getD, List.getElem?_append_left hi]

theorem getD_append_length (h : Heap) (a : List String) :
    (h ++ [a]).getD h.length [] = a := by
  simp [List.getD_eq_getElem?_getD]

theorem read_length (h : Heap) (s : Slice) (hs : s.Backed h) : (h.read s).length = s.len := by
  unfold Heap.read
  rw [List.length_take]
  by_cases hc : s.cap = 0
  · have := hs.1; omega
  · have := (hs.2 hc).2; have := hs.1; omega

/-- The slice returned by `append` reads as the old elements followed by the new one, and is
backed in the new heap. -/
theorem goAppend_read (grow : Nat → Nat) (h : Heap) (s : Slice) (x : String)
    (hs : s.Backed h) :
    (goAppend grow h s x).1.read (goAppend grow h s x).2 = h.read s ++ [x] ∧
      (goAppend grow h s x).2.Backed (goAppend grow h s x).1 := by
  unfold goAppend
  by_cases hlt : s.len < s.cap
  · have hc : s.cap ≠ 0 := by omega
    obtain ⟨harr, hlen⟩ := hs.2 hc
    simp only [hlt, if_true]
    refine ⟨?_, ?_, ?_⟩
    · simp only [Heap.read]
      rw [getD_set_self h s.arr _ harr]
      exact take_set_succ _ _ _ (by omega)
    · show s.len + 1 ≤ s.cap
      omega
    · intro _
      refine ⟨by simpa using harr, ?_⟩
      show ((h.set s.arr ((h.getD s.arr []).set s.len x)).getD s.arr []).length = s.cap
      rw [getD_set_self h s.arr _ harr]
      simpa using hlen
  · simp only [hlt, if_false]
    have hrl := read_length h s hs
    refine ⟨?_, ?_, ?_⟩
    · simp only [Heap.read]
      rw [getD_append_length]
      have hrl2 : ((h.getD s.arr []).take s.len).length = s.len := hrl
      have : ((h.getD s.arr []).take s.len ++ [x]).length = s.len + 1 := by
        rw [List.length_append, hrl2]; rfl
      rw [List.take_append_of_le_length (by omega)]
      rw [List.take_of_length_le (by omega)]
    · show s.len + 1 ≤ max (s.len + 1) (grow s.cap)
      exact le_max_left _ _
    · intro _
      refine ⟨by simp, ?_⟩
      show ((h ++ [_]).getD h.length []).length = max (s.len + 1) (grow s.cap)
      rw [getD_append_length]
      simp only [List.length_append, List.length_replicate, List.length_singleton, hrl]
      have : s.len + 1 ≤ max (s.len + 1) (grow s.cap) := le_max_left _ _
      omega

/-- Appending to slice `s` leaves the elements seen through `s` itself unchanged, and `s`
stays backed. -/
theorem goAppend_frame (grow : Nat → Nat) (h : Heap) (s : Slice) (x : String)
    (hs : s.Backed h) :
    (goAppend grow h s x).1.read s = h.read s ∧ s.Backed (goAppend grow h s x).1 := by
  unfold goAppend
  by_cases hlt : s.len < s.cap
  · have hc : s.cap ≠ 0 := by omega
    obtain ⟨harr, hlen⟩ := hs.2 hc
    simp only [hlt, if_true]
    refine ⟨?_, hs.1, ?_⟩
    · simp only [Heap.read]
      rw [getD_set_self h s.arr _ harr]
      exact take_set_same _ _ _
    · intro _
      refine ⟨by simpa using harr, ?_⟩
      rw [getD_set_self h s.arr _ harr]
      simpa using hlen
  · simp only [hlt, if_false]
    by_cases hc : s.cap = 0
    · have hl : s.len = 0 := by have := hs.1; omega
      refine ⟨?_, hs.1, fun hne => absurd hc hne⟩
      simp [Heap.read, hl]
    · obtain ⟨harr, hlen⟩ := hs.2 hc
      refine ⟨?_, hs.1, ?_⟩
      · simp only [Heap.read]
        rw [getD_append_lt h s.arr _ harr]
      · intro _
        refine ⟨?_, ?_⟩
        · simp only [List.length_append, List.length_singleton]; omega
        · rw [getD_append_lt h s.arr _ harr]; exact hlen

theorem emptySlice_backed (h : Heap) : emptySlice.Backed h :=
  ⟨Nat.le_refl 0, fun hne => absurd rfl hne⟩

theorem read_emptySlice (h : Heap) : h.read emptySlice = [] := by
  simp [Heap.read, emptySlice]

theorem makeTags_fold (grow : Nat → Nat) (tags : List (String × String)) (st : Heap × Slice)
    (hs : st.2.Backed st.1) :
    (tags.foldl (fun st kv => goAppend grow st.1 st.2 (kv.1 ++ "=" ++ kv.2)) st).1.read
        (tags.foldl (fun st kv => goAppend grow st.1 st.2 (kv.1 ++ "=" ++ kv.2)) st).2
      = st.1.read st.2 ++ tags.map (fun kv => kv.1 ++ "=" ++ kv.2) ∧
    (tags.foldl (fun st kv => goAppend grow st.1 st.2 (kv.1 ++ "=" ++ kv.2)) st).2.Backed
        (tags.foldl (fun st kv => goAppend grow st.1 st.2 (kv.1 ++ "=" ++ kv.2)) st).1 := by
  induction tags generalizing st with
  | nil => simpa using hs
  | cons kv rest ih =>
    simp only [List.foldl_cons, List.map_cons]
    obtain ⟨hr, hb⟩ := goAppend_read grow st.1 st.2 (kv.1 ++ "=" ++ kv.2) hs
    obtain ⟨hr2, hb2⟩ := ih _ hb
    refine ⟨?_, hb2⟩
    rw [hr2, hr]
    simp

/-- The slice built by `makeTags` holds one `key=value` string per entry of the map, in the
order of the `range` loop, and is backed in the heap that `makeTags` leaves. -/
theorem makeTags_read (grow : Nat → Nat) (tags : List (String × String)) (h : Heap) :
    (makeTags grow tags h).1.read (makeTags grow tags h).2
      = tags.map (fun kv => kv.1 ++ "=" ++ kv.2) ∧
    (makeTags grow tags h).2.Backed (makeTags grow tags h).1 := by
  have := makeTags_fold grow tags (h, emptySlice) (emptySlice_backed h)
  simpa [makeTags, read_emptySlice] using this

theorem rangeAppend_nil {F64 F32 : Type} (E : Env F64 F32) (rtags : Slice) (now : Int)
    (nm : String) (st : FlatState F32) : rangeAppend E rtags now nm [] st = st := rfl

theorem rangeAppend_cons {F64 F32 : Type} (E : Env F64 F32) (rtags : Slice) (now : Int)
    (nm : String) (kv : String × F64) (visit : List (String × F64)) (st : FlatState F32) :
    rangeAppend E rtags now nm (kv :: visit) st =
      rangeAppend E rtags now nm visit
        ((makeBucketTags E.grow kv.1 rtags st.1).1,
          st.2 ++ [{ mtime := now, name := nm, tags := (makeBucketTags E.grow kv.1 rtags st.1).2,
                     fval := E.f32OfF64 kv.2 }]) := rfl

/-- The range loop leaves the elements seen through the base slice unchanged. -/
theorem rangeAppend_frame {F64 F32 : Type} (E : Env F64 F32) (rtags : Slice) (now : Int)
    (nm : String) (visit : List (String × F64)) (st : FlatState F32)
    (hs : rtags.Backed st.1) :
    (rangeAppend E rtags now nm visit st).1.read rtags = st.1.read rtags ∧
      rtags.Backed (rangeAppend E rtags now nm visit st).1 := by
  induction visit generalizing st with
  | nil => exact ⟨rfl, hs⟩
  | cons kv rest ih =>
    rw [rangeAppend_cons]
    obtain ⟨hr, hb⟩ := goAppend_frame E.grow st.1 rtags ("bucket=" ++ kv.1) hs
    obtain ⟨hr2, hb2⟩ := ih (_, _) hb
    exact ⟨hr2.trans hr, hb2⟩

/-- The range loop appends one row per visited entry, in the order of the visit, each with the
cycle timestamp, the given name and the `float32` conversion of the value of the entry. -/
theorem rangeAppend_rows {F64 F32 : Type} (E : Env F64 F32) (rtags : Slice) (now : Int)
    (nm : String) (visit : List (String × F64)) (st : FlatState F32) :
    ∃ rows : List (metricRow F32),
      (rangeAppend E rtags now nm visit st).2 = st.2 ++ rows ∧
      rows.map (fun r => (r.mtime, r.name, r.fval))
        = visit.map (fun kv => (now, nm, E.f32OfF64 kv.2)) := by
  induction visit generalizing st with
  | nil => exact ⟨[], by simp [rangeAppend_nil], rfl⟩
  | cons kv rest ih =>
    rw [rangeAppend_cons]
    obtain ⟨rows, h1, h2⟩ := ih
      ((makeBucketTags E.grow kv.1 rtags st.1).1,
        st.2 ++ [{ mtime := now, name := nm, tags := (makeBucketTags E.grow kv.1 rtags st.1).2,
                   fval := E.f32OfF64 kv.2 }])
    refine ⟨{ mtime := now, name := nm, tags := (makeBucketTags E.grow kv.1 rtags st.1).2,
              fval := E.f32OfF64 kv.2 } :: rows, ?_, ?_⟩
    · rw [h1]; simp
    · simp [h2]

/-- The callback of `Each` leaves the elements seen through the base slice unchanged. -/
theorem sendEach_frame {F64 F32 : Type} (E : Env F64 F32) (rtags : Slice) (now : Int)
    (st : FlatState F32) (entry : String × Metric F64) (hs : rtags.Backed st.1) :
    (sendEach E rtags now st entry).1.read rtags = st.1.read rtags ∧
      rtags.Backed (sendEach E rtags now st entry).1 := by
  obtain ⟨n, m⟩ := entry
  cases m with
  | counter c => exact ⟨rfl, hs⟩
  | gauge v => exact ⟨rfl, hs⟩
  | gaugeFloat64 v => exact ⟨rfl, hs⟩
  | histogram ms => exact rangeAppend_frame E rtags now _ _ st hs
  | meter ms => exact rangeAppend_frame E rtags now _ _ st hs
  | timer ms => exact rangeAppend_frame E rtags now _ _ st hs
  | other => exact ⟨rfl, hs⟩

theorem foldl_sendEach_frame {F64 F32 : Type} (E : Env F64 F32) (rtags : Slice) (now : Int)
    (reg : List (String × Metric F64)) (st : FlatState F32) (hs : rtags.Backed st.1) :
    (reg.foldl (sendEach E rtags now) st).1.read rtags = st.1.read rtags ∧
      rtags.Backed (reg.foldl (sendEach E rtags now) st).1 := by
  induction reg generalizing st with
  | nil => exact ⟨rfl, hs⟩
  | cons e rest ih =>
    simp only [List.foldl_cons]
    obtain ⟨hr, hb⟩ := sendEach_frame E rtags now st e hs
    obtain ⟨hr2, hb2⟩ := ih _ hb
    exact ⟨hr2.trans hr, hb2⟩

/-- Every row appended by the callback of `Each` carries the cycle timestamp. -/
theorem sendEach_mtime {F64 F32 : Type} (E : Env F64 F32) (rtags : Slice) (now : Int)
    (st : FlatState F32) (entry : String × Metric F64)
    (hst : ∀ row ∈ st.2, row.mtime = now) :
    ∀ row ∈ (sendEach E rtags now st entry).2, row.mtime = now := by
  have key : ∀ (nm : String) (visit : List (String × F64)),
      ∀ row ∈ (rangeAppend E rtags now nm visit st).2, row.mtime = now := by
    intro nm visit row hrow
    obtain ⟨rows, h1, h2⟩ := rangeAppend_rows E rtags now nm visit st
    rw [h1, List.mem_append] at hrow
    rcases hrow with hrow | hrow
    · exact hst row hrow
    · have hm : (row.mtime, row.name, row.fval) ∈
          rows.map (fun r => (r.mtime, r.name, r.fval)) := List.mem_map_of_mem _ hrow
      rw [h2, List.mem_map] at hm
      obtain ⟨kv, _, hkv⟩ := hm
      exact (congrArg Prod.fst hkv).symm
  obtain ⟨n, m⟩ := entry
  cases m with
  | counter c =>
    intro row hrow
    simp only [sendEach, List.mem_append, List.mem_singleton] at hrow
    rcases hrow with hrow | hrow
    · exact hst row hrow
    · rw [hrow]
  | gauge v =>
    intro row hrow
    simp only [sendEach, List.mem_append, List.mem_singleton] at hrow
    rcases hrow with hrow | hrow
    · exact hst row hrow
    · rw [hrow]
  | gaugeFloat64 v =>
    intro row hrow
    simp only [sendEach, List.mem_append, List.mem_singleton] at hrow
    rcases hrow with hrow | hrow
    · exact hst row hrow
    · rw [hrow]
  | histogram ms => exact key _ _
  | meter ms => exact key _ _
  | timer ms => exact key _ _
  | other => exact hst

theorem foldl_sendEach_mtime {F64 F32 : Type} (E : Env F64 F32) (rtags : Slice) (now : Int)
    (reg : List (String × Metric F64)) (st : FlatState F32)
    (hst : ∀ row ∈ st.2, row.mtime = now) :
    ∀ row ∈ (reg.foldl (sendEach E rtags now) st).2, row.mtime = now := by
  induction reg generalizing st with
  | nil => exact hst
  | cons e rest ih =>
    simp only [List.foldl_cons]
    exact ih _ (sendEach_mtime E rtags now st e hst)

/-- The insert loop, when no `Exec` fails, hands every row of the batch to the transaction, in
order. -/
theorem insertLoop_ok {F32 : Type} (sc : SendScript) (h : Heap) (i : Nat)
    (pts : List (metricRow F32)) (acc batch : List (StoredRow F32))
    (hok : insertLoop sc h i pts acc = .ok batch) :
    batch = acc ++ pts.map (toStored h) ∧ ∀ j, j < pts.length → sc.insertErr (i + j) = none := by
  induction pts generalizing i acc with
  | nil =>
    simp only [insertLoop, Except.ok.injEq] at hok
    exact ⟨by simp [hok], fun j hj => absurd hj (by simp)⟩
  | cons pt rest ih =>
    unfold insertLoop at hok
    cases he : sc.insertErr i with
    | some e => simp [he] at hok
    | none =>
      simp only [he] at hok
      obtain ⟨h1, h2⟩ := ih (i + 1) _ hok
      refine ⟨by simp [h1], ?_⟩
      intro j hj
      cases j with
      | zero => simpa using he
      | succ k =>
        have := h2 k (by simpa using hj)
        rw [← this]; congr 1; omega

/-- The insert loop ends in `log.Fatalf` exactly when some `Exec` of the batch fails. -/
theorem insertLoop_error {F32 : Type} (sc : SendScript) (h : Heap) (i : Nat)
    (pts : List (metricRow F32)) (acc : List (StoredRow F32)) :
    (∃ msg, insertLoop sc h i pts acc = .error msg) ↔
      ∃ j, j < pts.length ∧ sc.insertErr (i + j) ≠ none := by
  induction pts generalizing i acc with
  | nil => simp [insertLoop]
  | cons pt rest ih =>
    unfold insertLoop
    cases he : sc.insertErr i with
    | some e =>
      simp only [Except.error.injEq, exists_eq', true_iff]
      exact ⟨0, by simp, by simp [he]⟩
    | none =>
      simp only []
      rw [ih (i + 1)]
      constructor
      · rintro ⟨j, hj, hne⟩
        exact ⟨j + 1, by simpa using hj, by rwa [show i + (j + 1) = i + 1 + j by omega]⟩
      · rintro ⟨j, hj, hne⟩
        cases j with
        | zero => exact absurd he (by simpa using hne)
        | succ k =>
          exact ⟨k, by simpa using hj, by rwa [show i + 1 + k = i + (k + 1) by omega]⟩

/-- The insert loop succeeds when no `Exec` of the batch fails. -/
theorem insertLoop_total {F32 : Type} (sc : SendScript) (h : Heap) (i : Nat)
    (pts : List (metricRow F32)) (acc : List (StoredRow F32))
    (hall : ∀ j, j < pts.length → sc.insertErr (i + j) = none) :
    insertLoop sc h i pts acc = .ok (acc ++ pts.map (toStored h)) := by
  induction pts generalizing i acc with
  | nil => simp [insertLoop]
  | cons pt rest ih =>
    unfold insertLoop
    have h0 : sc.insertErr i = none := by simpa using hall 0 (by simp)
    simp only [h0]
    rw [ih (i + 1)]
    · simp
    · intro j hj
      have := hall (j + 1) (by simpa using hj)
      rwa [show i + 1 + j = i + (j + 1) by omega]

/-! ## What one `send` does -/

/-- One `send` either returns nil, and then every database call succeeded and the whole batch
is added to the store, or does not return, and then the store is as before. -/
theorem send_spec {F64 F32 : Type} (E : Env F64 F32) (r : reporter)
    (reg : List (String × Metric F64)) (clock : Int) (sc : SendScript) (w : World F32) :
    ((r.send E reg clock sc w).1 = .returned none ∧ r.chconn ≠ none ∧ sc.beginErr = none ∧
        sc.prepareErr = none ∧
        (∀ j, j < (r.points E reg clock w.heap).2.length → sc.insertErr j = none) ∧
        sc.commitErr = none ∧
        (r.send E reg clock sc w).2.store =
          w.store ++ (r.points E reg clock w.heap).2.map
            (toStored (r.points E reg clock w.heap).1)) ∨
      ((∀ v, (r.send E reg clock sc w).1 ≠ .returned v) ∧
        (r.send E reg clock sc w).2.store = w.store) := by
  unfold reporter.send
  cases hc : r.chconn with
  | none => right; simp
  | some c =>
    cases hb : sc.beginErr with
    | some e => right; simp
    | none =>
      cases hp : sc.prepareErr with
      | some e => right; simp
      | none =>
        cases hi : insertLoop sc (r.points E reg clock w.heap).1 0
            (r.points E reg clock w.heap).2 [] with
        | error msg => right; simp [hi]
        | ok batch =>
          cases hcm : sc.commitErr with
          | some e => right; simp [hi]
          | none =>
            left
            obtain ⟨h1, h2⟩ := insertLoop_ok _ _ _ _ _ _ hi
            exact ⟨by simp [hi], by simp, rfl, rfl, fun j hj => by simpa using h2 j hj, rfl,
              by simp [hi, h1]⟩

/-- With a connection and a transaction, `send` returns nil when every later call succeeds. -/
theorem send_ok {F64 F32 : Type} (E : Env F64 F32) (r : reporter)
    (reg : List (String × Metric F64)) (clock : Int) (sc : SendScript) (w : World F32)
    (c : Nat) (hc : r.chconn = some c) (hb : sc.beginErr = none) (hp : sc.prepareErr = none)
    (hi : ∀ j, j < (r.points E reg clock w.heap).2.length → sc.insertErr j = none)
    (hcm : sc.commitErr = none) :
    (r.send E reg clock sc w).1 = .returned none := by
  unfold reporter.send
  have := insertLoop_total sc (r.points E reg clock w.heap).1 0
    (r.points E reg clock w.heap).2 [] (by simpa using hi)
  simp [hc, hb, hp, hcm, this]

/-- With a connection and a transaction, `send` ends in `log.Fatalf` when a later call fails. -/
theorem send_fatal {F64 F32 : Type} (E : Env F64 F32) (r : reporter)
    (reg : List (String × Metric F64)) (clock : Int) (sc : SendScript) (w : World F32)
    (c : Nat) (hc : r.chconn = some c) (hb : sc.beginErr = none)
    (hbad : ¬ (sc.prepareErr = none ∧
      (∀ j, j < (r.points E reg clock w.heap).2.length → sc.insertErr j = none) ∧
      sc.commitErr = none)) :
    ∃ msg, (r.send E reg clock sc w).1 = .fatal msg := by
  unfold reporter.send
  cases hp : sc.prepareErr with
  | some e => exact ⟨"Error preparing insert statement: " ++ e, by simp [hc, hb]⟩
  | none =>
    cases hi : insertLoop sc (r.points E reg clock w.heap).1 0
        (r.points E reg clock w.heap).2 [] with
    | error msg => exact ⟨msg, by simp [hc, hb, hi]⟩
    | ok batch =>
      cases hcm : sc.commitErr with
      | some e => exact ⟨"Error commit transaction: " ++ e, by simp [hc, hb, hi]⟩
      | none =>
        exfalso
        apply hbad
        obtain ⟨_, h2⟩ := insertLoop_ok _ _ _ _ _ _ hi
        exact ⟨hp, fun j hj => by simpa using h2 j hj, hcm⟩

/-- The flush branch of `run` keeps looping after a `send` that returned nil. -/
theorem runStep_interval_returned {F64 F32 : Type} (E : Env F64 F32) (r : reporter)
    (reg : List (String × Metric F64)) (clock : Int) (sc : SendScript) (w : World F32)
    (h : (r.send E reg clock sc w).1 = .returned none) :
    r.runStep E w (.interval reg clock sc) = .running r (r.send E reg clock sc w).2 := by
  simp only [reporter.runStep]
  generalize r.send E reg clock sc w = res at h ⊢
  obtain ⟨o, w1⟩ := res
  simp only at h
  subst h
  rfl

/-- The flush branch of `run` leaves the loop when `send` ends in `log.Fatalf`. -/
theorem runStep_interval_fatal {F64 F32 : Type} (E : Env F64 F32) (r : reporter)
    (reg : List (String × Metric F64)) (clock : Int) (sc : SendScript) (w : World F32)
    (msg : String) (h : (r.send E reg clock sc w).1 = .fatal msg) :
    r.runStep E w (.interval reg clock sc) =
      .exited (.fatal msg) r (r.send E reg clock sc w).2 := by
  simp only [reporter.runStep]
  generalize r.send E reg clock sc w = res at h ⊢
  obtain ⟨o, w1⟩ := res
  simp only at h
  subst h
  rfl

theorem byteSize_pos_iff (s : String) : 0 < s.utf8ByteSize ↔ s ≠ "" := by
  obtain ⟨cs⟩ := s
  cases cs with
  | nil => simp [String.utf8ByteSize, String.utf8ByteSize.go]
  | cons c cs =>
    simp only [String.utf8ByteSize, String.utf8ByteSize.go]
    have := Char.utf8Size_pos c
    constructor
    · intro _ h
      have := congrArg String.data h
      simp at this
    · intro _; omega

theorem foldl_sendEach_other {F64 F32 : Type} (E : Env F64 F32) (rtags : Slice) (now : Int)
    (n : String) (pre post : List (String × Metric F64)) (st : FlatState F32) :
    (pre ++ (n, Metric.other) :: post).foldl (sendEach E rtags now) st =
      (pre ++ post).foldl (sendEach E rtags now) st := by
  simp only [List.foldl_append, List.foldl_cons]
  rfl

/-! ## The claims -/

/-- C10: `makeClient` puts credentials into the connection string exactly when the username and
the password are both non-empty: the string is `tcp://<hostport>?username=<u>&password=<p>&`
then and `tcp://<hostport>?` otherwise; it does not depend on the configured database (or
table); and it is the string handed to `sqlx.Open`. -/
theorem connstring_credentials (r : reporter) :
    (r.connstring =
      if r.username ≠ "" ∧ r.password ≠ "" then
        "tcp://" ++ r.hostport ++ "?username=" ++ r.username ++ "&password=" ++ r.password ++ "&"
      else "tcp://" ++ r.hostport ++ "?") ∧
    (∀ db tbl : String, ({ r with database := db, table := tbl }).connstring = r.connstring) ∧
    (∀ (F32 : Type) (w : World F32) (e1 e2 : Option String),
      (r.makeClient { openErr := none, createDbErr := e1, createTableErr := e2 } w).2.2.opened
        = w.opened ++ [r.connstring]) := by
  refine ⟨?_, fun _ _ => rfl, ?_⟩
  · unfold reporter.connstring
    simp only [byteSize_pos_iff]
    split_ifs with h
    · rw [show ("?username=" : String) = "?" ++ "username=" from by decide]
      simp only [String.append_assoc]
    · simp
  · intro F32 w e1 e2
    unfold reporter.makeClient
    cases e1 <;> cases e2 <;> rfl

/-- C9: a registry entry whose value is none of Counter, Gauge, GaugeFloat64, Histogram, Meter,
Timer makes the callback of `Each` append no row and change nothing, and the flattening and the
whole `send` (outcome and store) of a cycle are the same as with that entry absent. -/
theorem unrecognized_entry_no_rows {F64 F32 : Type} (E : Env F64 F32) (rtags : Slice)
    (now : Int) (n : String) :
    (∀ st : FlatState F32, sendEach E rtags now st (n, Metric.other) = st) ∧
    (∀ (pre post : List (String × Metric F64)) (h : Heap),
      (flatten E rtags now (pre ++ (n, Metric.other) :: post) h : FlatState F32)
        = flatten E rtags now (pre ++ post) h) ∧
    (∀ (r : reporter) (pre post : List (String × Metric F64)) (clock : Int) (sc : SendScript)
      (w : World F32),
      r.send E (pre ++ (n, Metric.other) :: post) clock sc w = r.send E (pre ++ post) clock sc w) := by
  refine ⟨fun _ => rfl, ?_, ?_⟩
  · intro pre post h
    exact foldl_sendEach_other E rtags now n pre post (h, [])
  · intro r pre post clock sc w
    have : (r.points E (pre ++ (n, Metric.other) :: post) clock w.heap : FlatState F32)
        = r.points E (pre ++ post) clock w.heap :=
      foldl_sendEach_other E r.tags (r.cycleTime clock) n pre post (w.heap, [])
    unfold reporter.send
    rw [this]

/-- C4: with `align` set and a positive interval `d`, the timestamp `t` of a flush cycle is
`now` truncated to `d`: every row of `pts` carries `t`, every row a `send` adds to the store
carries `t`, and `t` is a multiple of `d` with `t <= now` and `now - t < d`. -/
theorem aligned_timestamp {F64 F32 : Type} (E : Env F64 F32) (r : reporter)
    (reg : List (String × Metric F64)) (clock : Int)
    (halign : r.align = true) (hd : 0 < r.interval) :
    r.cycleTime clock = truncate clock r.interval ∧
    (∀ (h : Heap), ∀ row ∈ (r.points E reg clock h : FlatState F32).2,
      row.mtime = truncate clock r.interval) ∧
    (∀ (sc : SendScript) (w : World F32), ∃ batch,
      (r.send E reg clock sc w).2.store = w.store ++ batch ∧
      ∀ s ∈ batch, s.time = truncate clock r.interval) ∧
    r.interval ∣ truncate clock r.interval ∧
    truncate clock r.interval ≤ clock ∧
    clock - truncate clock r.interval < r.interval := by
  have hct : r.cycleTime clock = truncate clock r.interval := by
    simp [reporter.cycleTime, halign]
  have hrows : ∀ (h : Heap), ∀ row ∈ (r.points E reg clock h : FlatState F32).2,
      row.mtime = truncate clock r.interval := by
    intro h row hrow
    rw [← hct]
    exact foldl_sendEach_mtime E r.tags (r.cycleTime clock) reg (h, [])
      (fun _ hmem => absurd hmem (List.not_mem_nil _)) row hrow
  have htr : truncate clock r.interval = clock - clock % r.interval := by
    simp [truncate, not_le.mpr hd]
  refine ⟨hct, hrows, ?_, ?_, ?_, ?_⟩
  · intro sc w
    rcases send_spec E r reg clock sc w with h | h
    · refine ⟨_, h.2.2.2.2.2.2, ?_⟩
      intro s hs
      rw [List.mem_map] at hs
      obtain ⟨row, hrow, rfl⟩ := hs
      exact hrows w.heap row hrow
    · exact ⟨[], by simp [h.2], fun _ hmem => absurd hmem (List.not_mem_nil _)⟩
  · rw [htr]
    exact Int.dvd_sub_of_emod_eq rfl
  · rw [htr]
    have := Int.emod_nonneg clock (ne_of_gt hd)
    omega
  · rw [htr]
    have := Int.emod_lt_of_pos clock hd
    omega

/-- Witness of C4: one second interval, `now` 2.5 seconds after the zero instant. -/
theorem aligned_timestamp_witness :
    ({ exReporter with align := true }).align = true ∧
    0 < ({ exReporter with align := true }).interval ∧
    ({ exReporter with align := true }).cycleTime 2500000000 = 2000000000 :=
  ⟨rfl, by decide,
    (aligned_timestamp exEnv { exReporter with align := true } [("x", .counter 5)] 2500000000
      rfl (by decide)).1.trans (by decide)⟩

/-- C5: in one `send`, when the insert of the row at position `N` of the batch fails, `send`
does not return and the store holds exactly the rows it held before (none of the cycle, the
earlier rows included); and in every `send` the store afterwards is either unchanged or the
old store followed by the whole batch, the latter only when every insert and the commit
succeeded. -/
theorem insert_failure_commits_nothing {F64 F32 : Type} (E : Env F64 F32) (r : reporter)
    (reg : List (String × Metric F64)) (clock : Int) (sc : SendScript) (w : World F32) :
    (∀ (N : Nat) (e : String), N < (r.points E reg clock w.heap : FlatState F32).2.length →
      sc.insertErr N = some e →
      (r.send E reg clock sc w).2.store = w.store ∧
      ∀ v, (r.send E reg clock sc w).1 ≠ .returned v) ∧
    ((r.send E reg clock sc w).2.store = w.store ∨
      ((r.send E reg clock sc w).2.store =
          w.store ++ (r.points E reg clock w.heap).2.map
            (toStored (r.points E reg clock w.heap).1) ∧
        (∀ j, j < (r.points E reg clock w.heap : FlatState F32).2.length →
          sc.insertErr j = none) ∧
        sc.commitErr = none ∧ (r.send E reg clock sc w).1 = .returned none)) := by
  constructor
  · intro N e hN he
    rcases send_spec E r reg clock sc w with h | h
    · have := h.2.2.2.2.1 N hN
      rw [he] at this
      cases this
    · exact ⟨h.2, h.1⟩
  · rcases send_spec E r reg clock sc w with h | h
    · exact Or.inr ⟨h.2.2.2.2.2.2, h.2.2.2.2.1, h.2.2.2.2.2.1, h.1⟩
    · exact Or.inl h.2

/-- Witness of C5: a cycle of six rows whose third insert fails leaves the empty store empty. -/
theorem insert_failure_commits_nothing_witness :
    2 < (exReporter.points exEnv [("m", .meter exMeter), ("x", .counter 5)] 0
          exWorld.heap : FlatState Int).2.length ∧
    (failInsertAt 2).insertErr 2 = some "broken pipe" ∧
    (exReporter.send exEnv [("m", .meter exMeter), ("x", .counter 5)] 0
      (failInsertAt 2) exWorld).2.store = [] :=
  ⟨by decide, rfl,
    ((insert_failure_commits_nothing exEnv exReporter [("m", .meter exMeter), ("x", .counter 5)]
      0 (failInsertAt 2) exWorld).1 2 "broken pipe" (by decide) rfl).1⟩

/-- C7 (amended): with a connection and a transaction (`Begin` succeeded), `send` never
returns a non-nil error. When preparing the statement, every insert and the commit succeed it
returns nil and `run` stays in its loop; when one of them fails, `send` ends in `log.Fatalf`,
the process exits and `run` handles no later tick. -/
theorem send_failure_is_fatal {F64 F32 : Type} (E : Env F64 F32) (r : reporter)
    (reg : List (String × Metric F64)) (clock : Int) (sc : SendScript) (w : World F32)
    (c : Nat) (hc : r.chconn = some c) (hb : sc.beginErr = none) :
    (∀ err, (r.send E reg clock sc w).1 ≠ .returned (some err)) ∧
    ((sc.prepareErr = none ∧
        (∀ j, j < (r.points E reg clock w.heap : FlatState F32).2.length →
          sc.insertErr j = none) ∧
        sc.commitErr = none) →
      (r.send E reg clock sc w).1 = .returned none ∧
      ∀ rest, r.run E w (.interval reg clock sc :: rest)
        = r.run E (r.send E reg clock sc w).2 rest) ∧
    (¬ (sc.prepareErr = none ∧
        (∀ j, j < (r.points E reg clock w.heap : FlatState F32).2.length →
          sc.insertErr j = none) ∧
        sc.commitErr = none) →
      ∃ msg, (r.send E reg clock sc w).1 = .fatal msg ∧
        ∀ rest, r.run E w (.interval reg clock sc :: rest)
          = .exited (.fatal msg) r (r.send E reg clock sc w).2) := by
  refine ⟨?_, ?_, ?_⟩
  · intro err herr
    rcases send_spec E r reg clock sc w with h | h
    · rw [h.1] at herr
      cases herr
    · exact h.1 _ herr
  · rintro ⟨hp, hi, hcm⟩
    have hret := send_ok E r reg clock sc w c hc hb hp hi hcm
    refine ⟨hret, fun rest => ?_⟩
    simp only [reporter.run, runStep_interval_returned E r reg clock sc w hret]
  · intro hbad
    obtain ⟨msg, hmsg⟩ := send_fatal E r reg clock sc w c hc hb hbad
    refine ⟨msg, hmsg, fun rest => ?_⟩
    simp only [reporter.run, runStep_interval_fatal E r reg clock sc w msg hmsg]

/-- Witness of C7 (amended): a flush of one counter in which every call succeeds. -/
theorem send_failure_is_fatal_witness :
    exReporter.chconn = some 0 ∧ okSend.beginErr = none ∧
    ∀ err, (exReporter.send exEnv [("x", .counter 5)] 0 okSend exWorld).1
      ≠ .returned (some err) :=
  ⟨rfl, rfl,
    (send_failure_is_fatal exEnv exReporter [("x", .counter 5)] 0 okSend exWorld 0 rfl rfl).1⟩

/-- C7, as stated, fails: in a flush of one counter whose only insert fails, `send` does not
return an error but ends in `log.Fatalf`; `run` leaves the loop, and the next flush tick, whose
calls would all succeed, is never handled (the store stays empty). -/
theorem insert_failure_ends_process :
    (exReporter.send exEnv [("x", .counter 5)] 0 (failInsertAt 0) exWorld).1
      = .fatal "Error insert to ClickHouse: broken pipe" ∧
    (exReporter.run exEnv exWorld
      [.interval [("x", .counter 5)] 0 (failInsertAt 0),
       .interval [("x", .counter 5)] 1000000000 okSend]).how
      = some (.fatal "Error insert to ClickHouse: broken pipe") ∧
    (exReporter.run exEnv exWorld
      [.interval [("x", .counter 5)] 0 (failInsertAt 0),
       .interval [("x", .counter 5)] 1000000000 okSend]).world.store = [] := by
  refine ⟨by decide, by decide, by decide⟩

/-- C6 fails on the code: when `sqlx.Open` fails inside `makeClient`, the handle `r.chconn`,
which was handle 0, becomes nil, the next statement calls `Exec` through it and panics, and
the health-check branch of `run` leaves the loop; no error is returned. When `sqlx.Open`
succeeds and the server cannot be reached by the first `Exec`, the old handle is replaced by
the new one and `log.Fatalf` ends the process. -/
theorem failed_open_drops_handle :
    exReporter.chconn = some 0 ∧
    (exReporter.makeClient failOpen exWorld).1 = .panicked nilDeref ∧
    (exReporter.makeClient failOpen exWorld).2.1.chconn = none ∧
    (exReporter.runStep exEnv exWorld
      (Tick.ping (some "EOF") failOpen : Tick Int)).how = some (.panicked nilDeref) ∧
    (exReporter.makeClient failDial exWorld).1
      = .fatal "Error creating clickhouse database: dial tcp: connection refused" ∧
    (exReporter.makeClient failDial exWorld).2.1.chconn = some 1 := by
  refine ⟨rfl, by decide, by decide, by decide, by decide, by decide⟩

/-- C8, as stated, fails: after two successful calls of `makeClient` the reporter holds the
handle of the second call (handle 2), and the handle of the first call (handle 1) is no longer
referenced but is still open: three handles are open, none was closed. -/
theorem second_makeClient_leaves_first_open :
    (exReporter.makeClient okClient exWorld).1 = .returned none ∧
    (exReporter.makeClient okClient exWorld).2.1.chconn = some 1 ∧
    ((exReporter.makeClient okClient exWorld).2.1.makeClient okClient
      (exReporter.makeClient okClient exWorld).2.2).1 = .returned none ∧
    ((exReporter.makeClient okClient exWorld).2.1.makeClient okClient
      (exReporter.makeClient okClient exWorld).2.2).2.1.chconn = some 2 ∧
    ((exReporter.makeClient okClient exWorld).2.1.makeClient okClient
      (exReporter.makeClient okClient exWorld).2.2).2.2.opened
      = ["tcp://localhost:9000?", "tcp://localhost:9000?", "tcp://localhost:9000?"] := by
  refine ⟨by decide, by decide, by decide, by decide, by decide⟩

/-- C8 (amended): from any reporter state, two successive successful calls of `makeClient`
both return nil; the first stores a fresh handle, the second stores another fresh handle in
`r.chconn`, so the handle of the first call is no longer referenced by the reporter; no handle
is closed: the open handles afterwards are those open before and the two new ones. -/
theorem makeClient_twice {F32 : Type} (r : reporter) (w : World F32) :
    (r.makeClient okClient w).1 = .returned none ∧
    (r.makeClient okClient w).2.1.chconn = some w.opened.length ∧
    ((r.makeClient okClient w).2.1.makeClient okClient (r.makeClient okClient w).2.2).1
      = .returned none ∧
    ((r.makeClient okClient w).2.1.makeClient okClient (r.makeClient okClient w).2.2).2.1.chconn
      = some (w.opened.length + 1) ∧
    ((r.makeClient okClient w).2.1.makeClient okClient (r.makeClient okClient w).2.2).2.1.chconn
      ≠ (r.makeClient okClient w).2.1.chconn ∧
    ((r.makeClient okClient w).2.1.makeClient okClient (r.makeClient okClient w).2.2).2.2.opened
      = w.opened ++ [r.connstring, r.connstring] := by
  refine ⟨rfl, rfl, rfl, ?_, ?_, ?_⟩
  · simp [reporter.makeClient, okClient]
  · simp [reporter.makeClient, okClient]
  · simp [reporter.makeClient, okClient, reporter.connstring]

/-- The callback of `Each` only appends to `pts`. -/
theorem sendEach_rows_append {F64 F32 : Type} (E : Env F64 F32) (rtags : Slice) (now : Int)
    (st : FlatState F32) (entry : String × Metric F64) :
    ∃ rows, (sendEach E rtags now st entry).2 = st.2 ++ rows := by
  obtain ⟨n, m⟩ := entry
  cases m with
  | counter c => exact ⟨_, rfl⟩
  | gauge v => exact ⟨_, rfl⟩
  | gaugeFloat64 v => exact ⟨_, rfl⟩
  | histogram ms =>
    obtain ⟨rows, h, _⟩ := rangeAppend_rows E rtags now (n ++ ".histogram")
      (E.rangeFields n (histogramFields E ms)) st
    exact ⟨rows, h⟩
  | meter ms =>
    obtain ⟨rows, h, _⟩ := rangeAppend_rows E rtags now (n ++ ".meter")
      (E.rangeFields n (meterFields E ms)) st
    exact ⟨rows, h⟩
  | timer ms =>
    obtain ⟨rows, h, _⟩ := rangeAppend_rows E rtags now (n ++ ".timer")
      (E.rangeFields n (timerFields E ms)) st
    exact ⟨rows, h⟩
  | other => exact ⟨[], by simp [sendEach]⟩

theorem foldl_sendEach_rows_append {F64 F32 : Type} (E : Env F64 F32) (rtags : Slice)
    (now : Int) (reg : List (String × Metric F64)) (st : FlatState F32) :
    ∃ rows, (reg.foldl (sendEach E rtags now) st).2 = st.2 ++ rows := by
  induction reg generalizing st with
  | nil => exact ⟨[], by simp⟩
  | cons e rest ih =>
    simp only [List.foldl_cons]
    obtain ⟨rows1, h1⟩ := sendEach_rows_append E rtags now st e
    obtain ⟨rows2, h2⟩ := ih (sendEach E rtags now st e)
    exact ⟨rows1 ++ rows2, by rw [h2, h1, List.append_assoc]⟩

/-- One range loop over a `fields` map: one row per entry of the map, in the order of the
visit, named `nm` and carrying the `float32` conversion of the value of the entry. -/
theorem range_case {F64 F32 : Type} (E : Env F64 F32)
    (hperm : ∀ n l, (E.rangeFields n l).Perm l) (rtags : Slice) (now : Int)
    (st : FlatState F32) (n nm : String) (fields : List (String × F64)) :
    ∃ (visit : List (String × F64)) (rows : List (metricRow F32)),
      visit.Perm fields ∧
      (rangeAppend E rtags now nm (E.rangeFields n fields) st).2 = st.2 ++ rows ∧
      rows.map (fun r => (r.name, r.fval)) = visit.map (fun kv => (nm, E.f32OfF64 kv.2)) ∧
      rows.length = fields.length := by
  obtain ⟨rows, h1, h2⟩ := rangeAppend_rows E rtags now nm (E.rangeFields n fields) st
  refine ⟨E.rangeFields n fields, rows, hperm n fields, h1, ?_, ?_⟩
  · have := congrArg (List.map (fun t : Int × String × F32 => (t.2.1, t.2.2))) h2
    simpa [List.map_map, Function.comp_def] using this
  · have := congrArg List.length h2
    simp only [List.length_map] at this
    rw [this, (hperm n fields).length_eq]

/-- C2: for a Histogram, Meter or Timer registered under `n`, the callback of `Each` appends
exactly one row per statistic key of that kind and nothing else: 12 rows named `n.histogram`,
5 rows named `n.meter`, 16 rows named `n.timer`. The keys are visited in some order `visit`,
a permutation of the listed (key, statistic) pairs: `count`, `max`, `min` are the `float64`
conversions of the snapshot's count, max and min, `mean`, `stddev`, `variance` its mean,
standard deviation and variance, `p50` .. `p9999` the six requested percentiles in order, and
`m1`, `m5`, `m15`, `mean` (meter) or `meanrate` (timer) the three moving rates and the mean
rate. The row of a key carries the `float32` conversion of the statistic of that key. A meter
with count 0 and rates `float64(0)` yields five rows of value `float32(float64(0))`. -/
theorem multi_statistic_rows {F64 F32 : Type} (E : Env F64 F32)
    (hperm : ∀ n l, (E.rangeFields n l).Perm l) (rtags : Slice) (now : Int)
    (st : FlatState F32) (n : String) :
    (∀ ms : HistogramSnapshot F64, ∃ (visit : List (String × F64)) (rows : List (metricRow F32)),
      visit.Perm
        [("count", E.f64OfI64 ms.count), ("max", E.f64OfI64 ms.max), ("mean", ms.mean),
         ("min", E.f64OfI64 ms.min), ("stddev", ms.stdDev), ("variance", ms.variance),
         ("p50", ms.ps 0), ("p75", ms.ps 1), ("p95", ms.ps 2), ("p99", ms.ps 3),
         ("p999", ms.ps 4), ("p9999", ms.ps 5)] ∧
      (sendEach E rtags now st (n, .histogram ms)).2 = st.2 ++ rows ∧
      rows.map (fun r => (r.name, r.fval))
        = visit.map (fun kv => (n ++ ".histogram", E.f32OfF64 kv.2)) ∧
      (rows.map (fun r => (r.name, r.fval))).Perm
        [(n ++ ".histogram", E.f32OfF64 (E.f64OfI64 ms.count)),
         (n ++ ".histogram", E.f32OfF64 (E.f64OfI64 ms.max)),
         (n ++ ".histogram", E.f32OfF64 ms.mean),
         (n ++ ".histogram", E.f32OfF64 (E.f64OfI64 ms.min)),
         (n ++ ".histogram", E.f32OfF64 ms.stdDev),
         (n ++ ".histogram", E.f32OfF64 ms.variance),
         (n ++ ".histogram", E.f32OfF64 (ms.ps 0)),
         (n ++ ".histogram", E.f32OfF64 (ms.ps 1)),
         (n ++ ".histogram", E.f32OfF64 (ms.ps 2)),
         (n ++ ".histogram", E.f32OfF64 (ms.ps 3)),
         (n ++ ".histogram", E.f32OfF64 (ms.ps 4)),
         (n ++ ".histogram", E.f32OfF64 (ms.ps 5))] ∧
      rows.length = 12 ∧
      (histogramFields E ms).map Prod.fst =
        ["count", "max", "mean", "min", "stddev", "variance",
         "p50", "p75", "p95", "p99", "p999", "p9999"]) ∧
    (∀ ms : MeterSnapshot F64, ∃ (visit : List (String × F64)) (rows : List (metricRow F32)),
      visit.Perm
        [("count", E.f64OfI64 ms.count), ("m1", ms.rate1), ("m5", ms.rate5),
         ("m15", ms.rate15), ("mean", ms.rateMean)] ∧
      (sendEach E rtags now st (n, .meter ms)).2 = st.2 ++ rows ∧
      rows.map (fun r => (r.name, r.fval))
        = visit.map (fun kv => (n ++ ".meter", E.f32OfF64 kv.2)) ∧
      (rows.map (fun r => (r.name, r.fval))).Perm
        [(n ++ ".meter", E.f32OfF64 (E.f64OfI64 ms.count)),
         (n ++ ".meter", E.f32OfF64 ms.rate1),
         (n ++ ".meter", E.f32OfF64 ms.rate5),
         (n ++ ".meter", E.f32OfF64 ms.rate15),
         (n ++ ".meter", E.f32OfF64 ms.rateMean)] ∧
      rows.length = 5 ∧
      (meterFields E ms).map Prod.fst = ["count", "m1", "m5", "m15", "mean"]) ∧
    (∀ ms : TimerSnapshot F64, ∃ (visit : List (String × F64)) (rows : List (metricRow F32)),
      visit.Perm
        [("count", E.f64OfI64 ms.count), ("max", E.f64OfI64 ms.max), ("mean", ms.mean),
         ("min", E.f64OfI64 ms.min), ("stddev", ms.stdDev), ("variance", ms.variance),
         ("p50", ms.ps 0), ("p75", ms.ps 1), ("p95", ms.ps 2), ("p99", ms.ps 3),
         ("p999", ms.ps 4), ("p9999", ms.ps 5), ("m1", ms.rate1), ("m5", ms.rate5),
         ("m15", ms.rate15), ("meanrate", ms.rateMean)] ∧
      (sendEach E rtags now st (n, .timer ms)).2 = st.2 ++ rows ∧
      rows.map (fun r => (r.name, r.fval))
        = visit.map (fun kv => (n ++ ".timer", E.f32OfF64 kv.2)) ∧
      (rows.map (fun r => (r.name, r.fval))).Perm
        [(n ++ ".timer", E.f32OfF64 (E.f64OfI64 ms.count)),
         (n ++ ".timer", E.f32OfF64 (E.f64OfI64 ms.max)),
         (n ++ ".timer", E.f32OfF64 ms.mean),
         (n ++ ".timer", E.f32OfF64 (E.f64OfI64 ms.min)),
         (n ++ ".timer", E.f32OfF64 ms.stdDev),
         (n ++ ".timer", E.f32OfF64 ms.variance),
         (n ++ ".timer", E.f32OfF64 (ms.ps 0)),
         (n ++ ".timer", E.f32OfF64 (ms.ps 1)),
         (n ++ ".timer", E.f32OfF64 (ms.ps 2)),
         (n ++ ".timer", E.f32OfF64 (ms.ps 3)),
         (n ++ ".timer", E.f32OfF64 (ms.ps 4)),
         (n ++ ".timer", E.f32OfF64 (ms.ps 5)),
         (n ++ ".timer", E.f32OfF64 ms.rate1),
         (n ++ ".timer", E.f32OfF64 ms.rate5),
         (n ++ ".timer", E.f32OfF64 ms.rate15),
         (n ++ ".timer", E.f32OfF64 ms.rateMean)] ∧
      rows.length = 16 ∧
      (timerFields E ms).map Prod.fst =
        ["count", "max", "mean", "min", "stddev", "variance",
         "p50", "p75", "p95", "p99", "p999", "p9999", "m1", "m5", "m15", "meanrate"]) ∧
    (∃ rows : List (metricRow F32),
      (sendEach E rtags now st
        (n, .meter { count := 0, rate1 := E.f64OfI64 0, rate5 := E.f64OfI64 0,
                     rate15 := E.f64OfI64 0, rateMean := E.f64OfI64 0 })).2 = st.2 ++ rows ∧
      rows.length = 5 ∧
      ∀ row ∈ rows, row.name = n ++ ".meter" ∧ row.fval = E.f32OfF64 (E.f64OfI64 0)) := by
  refine ⟨?_, ?_, ?_, ?_⟩
  · intro ms
    obtain ⟨visit, rows, hp, h1, h2, h3⟩ :=
      range_case E hperm rtags now st n (n ++ ".histogram") (histogramFields E ms)
    refine ⟨visit, rows, hp, h1, h2, ?_, h3, rfl⟩
    rw [h2]
    exact hp.map (fun kv => (n ++ ".histogram", E.f32OfF64 kv.2))
  · intro ms
    obtain ⟨visit, rows, hp, h1, h2, h3⟩ :=
      range_case E hperm rtags now st n (n ++ ".meter") (meterFields E ms)
    refine ⟨visit, rows, hp, h1, h2, ?_, h3, rfl⟩
    rw [h2]
    exact hp.map (fun kv => (n ++ ".meter", E.f32OfF64 kv.2))
  · intro ms
    obtain ⟨visit, rows, hp, h1, h2, h3⟩ :=
      range_case E hperm rtags now st n (n ++ ".timer") (timerFields E ms)
    refine ⟨visit, rows, hp, h1, h2, ?_, h3, rfl⟩
    rw [h2]
    exact hp.map (fun kv => (n ++ ".timer", E.f32OfF64 kv.2))
  · obtain ⟨visit, rows, hp, h1, h2, h3⟩ :=
      range_case E hperm rtags now st n (n ++ ".meter")
        (meterFields E { count := 0, rate1 := E.f64OfI64 0, rate5 := E.f64OfI64 0,
                         rate15 := E.f64OfI64 0, rateMean := E.f64OfI64 0 })
    refine ⟨rows, h1, h3, ?_⟩
    intro row hrow
    have hm : (row.name, row.fval) ∈ rows.map (fun r => (r.name, r.fval)) :=
      List.mem_map_of_mem _ hrow
    rw [h2, List.mem_map] at hm
    obtain ⟨kv, hkv, heq⟩ := hm
    have hkv2 := hp.mem_iff.mp hkv
    have hval : kv.2 = E.f64OfI64 0 := by
      simp only [meterFields, List.mem_cons, List.mem_singleton, List.not_mem_nil,
        or_false] at hkv2
      rcases hkv2 with h | h | h | h | h <;> rw [h]
    rw [hval] at heq
    exact ⟨(congrArg Prod.fst heq).symm, (congrArg Prod.snd heq).symm⟩

/-- Witness of C2: the identity visiting order; the meter `exMeter` (count 7, rates 1, 5, 15,
mean rate 9) registered under `m` yields the five rows of those values. -/
theorem multi_statistic_rows_witness :
    (∀ (n : String) (l : List (String × Int)), (exEnv.rangeFields n l).Perm l) ∧
    ∃ (visit : List (String × Int)) (rows : List (metricRow Int)),
      visit.Perm [("count", 7), ("m1", 1), ("m5", 5), ("m15", 15), ("mean", 9)] ∧
      (sendEach exEnv exReporter.tags 0 (exWorld.heap, []) ("m", .meter exMeter)).2
        = [] ++ rows ∧
      rows.map (fun r => (r.name, r.fval))
        = visit.map (fun kv => ("m" ++ ".meter", exEnv.f32OfF64 kv.2)) ∧
      (rows.map (fun r => (r.name, r.fval))).Perm
        [("m" ++ ".meter", 7), ("m" ++ ".meter", 1), ("m" ++ ".meter", 5),
         ("m" ++ ".meter", 15), ("m" ++ ".meter", 9)] ∧
      rows.length = 5 ∧
      (meterFields exEnv exMeter).map Prod.fst = ["count", "m1", "m5", "m15", "mean"] :=
  ⟨fun _ l => List.Perm.refl l,
    (multi_statistic_rows exEnv (fun _ l => List.Perm.refl l) exReporter.tags 0
      (exWorld.heap, []) "m").2.1 exMeter⟩

/-- C3: for a Counter of count `c` registered under `n`, the callback of `Each` appends exactly
one row, named `n.count`, of value `float32(c)`, whose tags are the slice `r.tags` built by
`makeTags`; that slice holds one `key=value` string per entry of the tags map and nothing else;
and whatever else the registry holds, when the batch is written the store receives for this
row exactly the name `n.count`, the value `float32(c)` and those tags. -/
theorem counter_row {F64 F32 : Type} (E : Env F64 F32) (tags : List (String × String))
    (h0 : Heap) (n : String) (c : Int) (now : Int) :
    (∀ st : FlatState F32,
      sendEach E (makeTags E.grow tags h0).2 now st (n, .counter c) =
        (st.1, st.2 ++ [{ mtime := now, name := n ++ ".count",
                          tags := (makeTags E.grow tags h0).2, fval := E.f32OfI64 c }])) ∧
    (makeTags E.grow tags h0).1.read (makeTags E.grow tags h0).2
      = tags.map (fun kv => kv.1 ++ "=" ++ kv.2) ∧
    (∀ pre post : List (String × Metric F64), ∃ after : List (metricRow F32),
      (flatten E (makeTags E.grow tags h0).2 now (pre ++ (n, .counter c) :: post)
          (makeTags E.grow tags h0).1 : FlatState F32).2
        = (flatten E (makeTags E.grow tags h0).2 now pre (makeTags E.grow tags h0).1).2 ++
            { mtime := now, name := n ++ ".count", tags := (makeTags E.grow tags h0).2,
              fval := E.f32OfI64 c } :: after ∧
      toStored
          (flatten E (makeTags E.grow tags h0).2 now (pre ++ (n, .counter c) :: post)
            (makeTags E.grow tags h0).1 : FlatState F32).1
          ({ mtime := now, name := n ++ ".count", tags := (makeTags E.grow tags h0).2,
             fval := E.f32OfI64 c } : metricRow F32)
        = { time := now, name := n ++ ".count",
            tags := tags.map (fun kv => kv.1 ++ "=" ++ kv.2), value := E.f32OfI64 c }) := by
  obtain ⟨hread, hback⟩ := makeTags_read E.grow tags h0
  refine ⟨fun _ => rfl, hread, ?_⟩
  intro pre post
  obtain ⟨after, hafter⟩ := foldl_sendEach_rows_append E (makeTags E.grow tags h0).2 now post
    (sendEach E (makeTags E.grow tags h0).2 now
      (pre.foldl (sendEach E (makeTags E.grow tags h0).2 now) ((makeTags E.grow tags h0).1, []))
      (n, .counter c))
  refine ⟨after, ?_, ?_⟩
  · simp only [flatten, List.foldl_append, List.foldl_cons]
    rw [hafter]
    simp [sendEach]
  · have hfr := (foldl_sendEach_frame E (makeTags E.grow tags h0).2 now
      (pre ++ (n, .counter c) :: post) (((makeTags E.grow tags h0).1, []) : FlatState F32)
      hback).1
    simp only [toStored, flatten]
    rw [hfr, hread]

/-- C1 fails on the code: a reporter whose three base tags were built by `makeTags` flushes a
meter `m` and a histogram `h`, every database call succeeding. `r.tags` has length 3 and
capacity 4, so every `makeBucketTags` writes its bucket tag into the same spare cell of the
backing array of `r.tags`: when the batch is written, all 17 rows carry `bucket=p9999`, the tag
of the last row; the five rows of the meter carry a bucket tag of the histogram. The base tags
seen through `r.tags` are unchanged. -/
theorem bucket_tag_overwritten :
    exReporter.tags = { arr := 2, len := 3, cap := 4 } ∧
    (exReporter.send exEnv [("m", .meter exMeter), ("h", .histogram exHistogram)] 0 okSend
      exWorld).1 = .returned none ∧
    (exReporter.send exEnv [("m", .meter exMeter), ("h", .histogram exHistogram)] 0 okSend
      exWorld).2.store.map (fun s => (s.name, s.value, s.tags)) =
      [("m.meter", 7, ["a=1", "b=2", "c=3", "bucket=p9999"]),
       ("m.meter", 1, ["a=1", "b=2", "c=3", "bucket=p9999"]),
       ("m.meter", 5, ["a=1", "b=2", "c=3", "bucket=p9999"]),
       ("m.meter", 15, ["a=1", "b=2", "c=3", "bucket=p9999"]),
       ("m.meter", 9, ["a=1", "b=2", "c=3", "bucket=p9999"]),
       ("h.histogram", 20, ["a=1", "b=2", "c=3", "bucket=p9999"]),
       ("h.histogram", 21, ["a=1", "b=2", "c=3", "bucket=p9999"]),
       ("h.histogram", 22, ["a=1", "b=2", "c=3", "bucket=p9999"]),
       ("h.histogram", 23, ["a=1", "b=2", "c=3", "bucket=p9999"]),
       ("h.histogram", 24, ["a=1", "b=2", "c=3", "bucket=p9999"]),
       ("h.histogram", 25, ["a=1", "b=2", "c=3", "bucket=p9999"]),
       ("h.histogram", 26, ["a=1", "b=2", "c=3", "bucket=p9999"]),
       ("h.histogram", 27, ["a=1", "b=2", "c=3", "bucket=p9999"]),
       ("h.histogram", 28, ["a=1", "b=2", "c=3", "bucket=p9999"]),
       ("h.histogram", 29, ["a=1", "b=2", "c=3", "bucket=p9999"]),
       ("h.histogram", 30, ["a=1", "b=2", "c=3", "bucket=p9999"]),
       ("h.histogram", 31, ["a=1", "b=2", "c=3", "bucket=p9999"])] ∧
    (exReporter.send exEnv [("m", .meter exMeter), ("h", .histogram exHistogram)] 0 okSend
      exWorld).2.heap.read exReporter.tags = ["a=1", "b=2", "c=3"] := by
  refine ⟨by decide, by decide, by decide, by decide⟩

end GoMetricsClickhouse
